import Mathlib

/-!
Verification of the conflict-tracking and blocking kernel of the rust-stm
repository, as a shallow embedding in Lean 4.

Two components are embedded:

* `LogVar` (from `src/transaction/log_var.rs`): the per-variable log-entry
  state machine with operations `read`, `write`, `obsolete` and
  `into_read_value`.  The Rust values are type-erased reference-counted
  handles (`Arc<Any + Send + Sync>`); cloning such a handle is semantically
  the identity on the value it denotes, so the embedding is parametric in a
  value type `α` and clones are identities.

* `ControlBlock` (from `stm-core/src/transaction/control_block.rs`): the
  blocking/wakeup protocol.  The atomic boolean `blocked`, the bound thread
  and the park timeout become record fields; mutation becomes explicit state
  passing.  The atomic `swap` of `set_changed` returns the old flag value,
  and the returned boolean of the embedded `set_changed` records whether the
  thread was unparked (a wake signal was issued).  The loop of `wait` loads
  the flag repeatedly while other threads may concurrently clear it, so the
  embedding takes an environment `env : Nat → Bool` giving the result of the
  i-th load of `blocked`, together with fuel bounding how many loop
  iterations are observed; the result is `none` when the loop is still
  running after the given number of iterations, and `some l` when it
  returned, where `l` is the list of the durations of the parks it performed.
-/

namespace RustStm

/-- LogVar is the per-variable log entry of one transaction attempt, a tagged
union over five variants, embedded from the Rust enum `LogVar`. -/
inductive LogVar (α : Type) where
  /-- Var has been read. -/
  | Read : α → LogVar α
  /-- Var has been written and no dependency on the original exists. -/
  | Write : α → LogVar α
  /-- ReadWrite(original value, temporary stored value). -/
  | ReadWrite : α → α → LogVar α
  /-- Var has been read on blocked path. -/
  | ReadObsolete : α → LogVar α
  /-- ReadObsoleteWrite(original value, temporary stored value). -/
  | ReadObsoleteWrite : α → α → LogVar α
  deriving DecidableEq

/-- Read a value and potentially upgrade the state.  Embeds `LogVar::read`:
the Rust method mutates `self` and returns a pair `(value, original)`; the
embedding returns the pair together with the new state. -/
def LogVar.read : LogVar α → (α × Option α) × LogVar α
  | .Read r => ((r, some r), .Read r)
  | .Write w => ((w, none), .Write w)
  | .ReadWrite o w => ((w, some o), .ReadWrite o w)
  | .ReadObsolete o => ((o, some o), .Read o)
  | .ReadObsoleteWrite o w => ((w, some o), .ReadWrite o w)

/-- Write a value and potentially upgrade the state.  Embeds `LogVar::write`;
the Rust method mutates `self` in place, the embedding returns the new
state. -/
def LogVar.write : LogVar α → α → LogVar α
  | .Write _, w => .Write w
  | .ReadObsolete r, w | .ReadObsoleteWrite r _, w => .ReadObsoleteWrite r w
  | .Read r, w | .ReadWrite r _, w => .ReadWrite r w

/-- Ignore all writes and get the original value of a Var.  Embeds
`LogVar::into_read_value`. -/
def LogVar.into_read_value : LogVar α → Option α
  | .Read v | .ReadWrite v _ | .ReadObsolete v | .ReadObsoleteWrite v _ => some v
  | .Write _ => none

/-- Turn the entry into an obsolete version.  Embeds `LogVar::obsolete`. -/
def LogVar.obsolete (v : LogVar α) : Option (LogVar α) :=
  v.into_read_value.map (fun a => .ReadObsolete a)

/-- Tells whether the entry carries the obsolete (blocked-retry) marker.
Helper predicate on the embedded enum, used to state that writing never
clears the marker. -/
def LogVar.is_obsolete : LogVar α → Bool
  | .ReadObsolete _ | .ReadObsoleteWrite _ _ => true
  | _ => false

/-- C1: for every LogEntry and every value, read() returns the pair given by
the variant table and performs exactly the stated upgrades: Read(v) returns
(v, Some(v)) with no state change; Write(w) returns (w, None) with no state
change; ReadWrite(o,w) returns (w, Some(o)) with no state change;
ReadObsolete(o) changes the state to Read(o) and returns (o, Some(o));
ReadObsoleteWrite(o,w) changes the state to ReadWrite(o,w) and returns
(w, Some(o)). -/
theorem read_variant_table {α : Type} (v o w : α) :
    (LogVar.Read v).read = ((v, some v), LogVar.Read v) ∧
    (LogVar.Write w).read = ((w, none), LogVar.Write w) ∧
    (LogVar.ReadWrite o w).read = ((w, some o), LogVar.ReadWrite o w) ∧
    (LogVar.ReadObsolete o).read = ((o, some o), LogVar.Read o) ∧
    (LogVar.ReadObsoleteWrite o w).read = ((w, some o), LogVar.ReadWrite o w) := by
  refine ⟨rfl, rfl, rfl, rfl, rfl⟩

/-- C2: for every LogEntry and every new value w, write(w) always succeeds
and performs exactly these transitions: Write(_) becomes Write(w); Read(o)
and ReadWrite(o,_) become ReadWrite(o,w); ReadObsolete(o) and
ReadObsoleteWrite(o,_) become ReadObsoleteWrite(o,w).  In particular a write
never clears the obsolete marker and never changes the stored original
value. -/
theorem write_variant_table {α : Type} (o w w2 : α) :
    (LogVar.Write o).write w = LogVar.Write w ∧
    (LogVar.Read o).write w = LogVar.ReadWrite o w ∧
    (LogVar.ReadWrite o w2).write w = LogVar.ReadWrite o w ∧
    (LogVar.ReadObsolete o).write w = LogVar.ReadObsoleteWrite o w ∧
    (LogVar.ReadObsoleteWrite o w2).write w = LogVar.ReadObsoleteWrite o w ∧
    (∀ e : LogVar α, (e.write w).is_obsolete = e.is_obsolete) ∧
    (∀ e : LogVar α, (e.write w).into_read_value = e.into_read_value) := by
  refine ⟨rfl, rfl, rfl, rfl, rfl, ?_, ?_⟩ <;>
    intro e <;> cases e <;> rfl

/-- C3: for every LogEntry, obsolete() returns Some(ReadObsolete(original))
when the entry is Read(original), ReadWrite(original,_),
ReadObsolete(original) or ReadObsoleteWrite(original,_) — dropping any
pending write — and returns None exactly when the entry is Write(_). -/
theorem obsolete_variant_table {α : Type} (o w : α) :
    (LogVar.Read o).obsolete = some (LogVar.ReadObsolete o) ∧
    (LogVar.ReadWrite o w).obsolete = some (LogVar.ReadObsolete o) ∧
    (LogVar.ReadObsolete o).obsolete = some (LogVar.ReadObsolete o) ∧
    (LogVar.ReadObsoleteWrite o w).obsolete = some (LogVar.ReadObsolete o) ∧
    (LogVar.Write w).obsolete = none ∧
    (∀ e : LogVar α, e.obsolete = none ↔ ∃ u, e = LogVar.Write u) := by
  refine ⟨rfl, rfl, rfl, rfl, rfl, ?_⟩
  intro e
  cases e <;> simp [LogVar.obsolete, LogVar.into_read_value]

/-- C4: for every LogEntry, into_read_value() returns Some(original) for
every variant that carries an original component, regardless of any pending
write, and returns None if and only if the entry is Write(_). -/
theorem into_read_value_variant_table {α : Type} (o w : α) :
    (LogVar.Read o).into_read_value = some o ∧
    (LogVar.ReadWrite o w).into_read_value = some o ∧
    (LogVar.ReadObsolete o).into_read_value = some o ∧
    (LogVar.ReadObsoleteWrite o w).into_read_value = some o ∧
    (LogVar.Write w).into_read_value = none ∧
    (∀ e : LogVar α, e.into_read_value = none ↔ ∃ u, e = LogVar.Write u) := by
  refine ⟨rfl, rfl, rfl, rfl, rfl, ?_⟩
  intro e
  cases e <;> simp [LogVar.into_read_value]

/-- C5: for every value o, calling read() on ReadObsolete(o) yields the
return value (o, Some(o)) and leaves the entry in state Read(o), and then
calling obsolete() on that resulting entry yields Some(ReadObsolete(o)) — a
round trip through read and obsolete restores the original blocked-retry
entry. -/
theorem read_obsolete_round_trip {α : Type} (o : α) :
    (LogVar.ReadObsolete o).read = ((o, some o), LogVar.Read o) ∧
    ((LogVar.ReadObsolete o).read.2).obsolete = some (LogVar.ReadObsolete o) := by
  refine ⟨rfl, rfl⟩

/-- C9: for every LogEntry e, obsolete(e) equals into_read_value(e) mapped
through the ReadObsolete constructor: obsolete(e) returns Some exactly when
into_read_value(e) returns Some, and in that case the value wrapped in the
resulting ReadObsolete is exactly the value into_read_value(e) would
extract. -/
theorem obsolete_eq_map_into_read_value {α : Type} (e : LogVar α) :
    e.obsolete = e.into_read_value.map (fun a => LogVar.ReadObsolete a) ∧
    e.obsolete.isSome = e.into_read_value.isSome := by
  cases e <;> exact ⟨rfl, rfl⟩

/-- ControlBlock is the per-retry synchronization object, embedded from the
Rust struct `ControlBlock`.  The thread handle becomes a thread identifier,
the atomic boolean `blocked` becomes a `Bool` field, and the park timeout in
milliseconds becomes a `Nat` field. -/
structure ControlBlock where
  /-- Handle to the thread that waits on the control block. -/
  thread : Nat
  /-- Atomic bool storing whether the thread is still considered blocked;
  true means no change has been signalled yet. -/
  blocked : Bool
  /-- Safety-net park timeout in milliseconds. -/
  park_timeout : Nat
  deriving DecidableEq

/-- Create a new StmControlBlock.  Embeds `ControlBlock::new`: the Rust
constructor captures the current thread, which is passed here explicitly. -/
def ControlBlock.new (t : Nat) : ControlBlock :=
  { thread := t, blocked := true, park_timeout := 1000 }

/-- Inform the control block that a variable has changed.  Embeds
`ControlBlock::set_changed`: the atomic `swap(false)` returns the old value
of `blocked`, and the thread is unparked exactly when that old value was
true.  The returned boolean records whether the wake signal (unpark) was
issued. -/
def ControlBlock.set_changed (cb : ControlBlock) : ControlBlock × Bool :=
  ({ cb with blocked := false }, cb.blocked)

/-- Runs `set_changed` a given number of times in sequence on one control
block, returning the final state and the total number of wake signals
issued across the calls. -/
def ControlBlock.set_changed_seq (cb : ControlBlock) : Nat → ControlBlock × Nat
  | 0 => (cb, 0)
  | n + 1 =>
    let s := cb.set_changed
    let r := s.1.set_changed_seq n
    (r.1, (if s.2 then 1 else 0) + r.2)

/-- Loop body of `ControlBlock::wait` starting at the i-th load of the
`blocked` flag.  `env i` is the value the i-th atomic load observes (other
threads may clear the flag concurrently).  Each iteration that observes
true parks the thread for `park_timeout` milliseconds and loads again.  The
fuel bounds how many iterations are observed: `none` means the loop has not
returned within that many iterations, `some l` means it returned having
performed the parks whose durations are listed in `l`. -/
def ControlBlock.waitAux (cb : ControlBlock) (env : Nat → Bool) :
    Nat → Nat → Option (List Nat)
  | _, 0 => none
  | i, fuel + 1 =>
    if env i then
      match cb.waitAux env (i + 1) fuel with
      | some l => some (cb.park_timeout :: l)
      | none => none
    else
      some []

/-- Block until one variable has changed.  Embeds `ControlBlock::wait`: the
while loop loads `blocked` and, while it is true, parks with the bounded
timeout and rechecks. -/
def ControlBlock.wait (cb : ControlBlock) (env : Nat → Bool) (fuel : Nat) :
    Option (List Nat) :=
  cb.waitAux env 0 fuel

/-- The public operations of a control block, used to state that the flag is
monotone under every operation. -/
inductive CBOp where
  | set_changed : CBOp
  | wait : CBOp

/-- Applies one public operation to the control block state.  `set_changed`
performs the swap; `wait` only loads the flag and never modifies the
state. -/
def ControlBlock.apply : ControlBlock → CBOp → ControlBlock
  | cb, .set_changed => cb.set_changed.1
  | cb, .wait => cb

/-- Applies a sequence of public operations to the control block state. -/
def ControlBlock.apply_all (cb : ControlBlock) (ops : List CBOp) : ControlBlock :=
  ops.foldl ControlBlock.apply cb

/-- Once the flag is cleared, no further sequence of `set_changed` calls
issues a wake signal. -/
theorem set_changed_seq_of_not_blocked (cb : ControlBlock)
    (h : cb.blocked = false) : ∀ n, (cb.set_changed_seq n).2 = 0 := by
  intro n
  induction n generalizing cb with
  | zero => rfl
  | succ n ih =>
    simp [ControlBlock.set_changed_seq, ControlBlock.set_changed, h]
    exact ih { cb with blocked := false } rfl

/-- A sequence of `set_changed` calls issues at most one wake signal. -/
theorem set_changed_seq_le_one (cb : ControlBlock) :
    ∀ n, (cb.set_changed_seq n).2 ≤ 1 := by
  intro n
  cases n with
  | zero => exact Nat.zero_le 1
  | succ n =>
    have h0 : (({ cb with blocked := false } : ControlBlock).set_changed_seq n).2 = 0 :=
      set_changed_seq_of_not_blocked _ rfl n
    simp [ControlBlock.set_changed_seq, ControlBlock.set_changed, h0]
    split <;> simp

/-- C6: a freshly constructed ControlBlock (ControlBlock::new) is bound to
the constructing thread, has its changed-flag in the still blocked (not yet
changed) state, and has a bounded wake-check interval defaulting to 1000
time-units. -/
theorem new_control_block_spec (t : Nat) :
    (ControlBlock.new t).thread = t ∧
    (ControlBlock.new t).blocked = true ∧
    (ControlBlock.new t).park_timeout = 1000 := by
  refine ⟨rfl, rfl, rfl⟩

/-- C7: for every sequence of set_changed() calls on one ControlBlock, only
the call that performs the actual not-changed-to-changed transition of the
flag issues a wake signal to the bound thread (the issued boolean equals the
old value of the blocked flag); every subsequent call is a no-op with
respect to the wake signal, so at most one wake signal is ever sent per
ControlBlock regardless of how many times set_changed is called. -/
theorem set_changed_at_most_one_wake (t n : Nat) (cb : ControlBlock) :
    cb.set_changed.2 = cb.blocked ∧
    (cb.set_changed.1).set_changed.2 = false ∧
    (cb.set_changed_seq n).2 ≤ 1 ∧
    ((ControlBlock.new t).set_changed_seq (n + 1)).2 = 1 := by
  refine ⟨rfl, rfl, set_changed_seq_le_one cb n, ?_⟩
  have h0 : (({ thread := t, blocked := false, park_timeout := 1000 } :
      ControlBlock).set_changed_seq n).2 = 0 :=
    set_changed_seq_of_not_blocked _ rfl n
  simp [ControlBlock.set_changed_seq, ControlBlock.set_changed,
    ControlBlock.new, h0]

/-- While every load of the flag observes blocked, the wait loop does not
return. -/
theorem waitAux_none (cb : ControlBlock) (env : Nat → Bool) :
    ∀ fuel i, (∀ j, j < fuel → env (i + j) = true) →
      cb.waitAux env i fuel = none := by
  intro fuel
  induction fuel with
  | zero => intro i _; rfl
  | succ fuel ih =>
    intro i h
    have h0 : env i = true := by
      have := h 0 (Nat.succ_pos fuel)
      simpa using this
    have hrec : cb.waitAux env (i + 1) fuel = none := by
      refine ih (i + 1) ?_
      intro j hj
      have := h (j + 1) (Nat.succ_lt_succ hj)
      simpa [Nat.add_assoc, Nat.add_comm, Nat.add_left_comm] using this
    simp [ControlBlock.waitAux, h0, hrec]

/-- When the wait loop returns, every park it performed used the bounded
timeout, the load after the last park observed the cleared flag, and every
earlier load observed the flag still set. -/
theorem waitAux_some (cb : ControlBlock) (env : Nat → Bool) :
    ∀ fuel i l, cb.waitAux env i fuel = some l →
      (∀ d ∈ l, d = cb.park_timeout) ∧ env (i + l.length) = false ∧
        ∀ j, j < l.length → env (i + j) = true := by
  intro fuel
  induction fuel with
  | zero => intro i l h; exact absurd h (by simp [ControlBlock.waitAux])
  | succ fuel ih =>
    intro i l h
    by_cases h0 : env i = true
    · rcases hrec : cb.waitAux env (i + 1) fuel with _ | l0
      · rw [ControlBlock.waitAux, if_pos h0, hrec] at h
        exact absurd h (by simp)
      · rw [ControlBlock.waitAux, if_pos h0, hrec] at h
        have hl : l = cb.park_timeout :: l0 := by
          simpa using h.symm
        subst hl
        obtain ⟨hall, hfin, hpre⟩ := ih (i + 1) l0 hrec
        refine ⟨?_, ?_, ?_⟩
        · intro d hd
          rcases List.mem_cons.mp hd with h1 | h2
          · exact h1
          · exact hall d h2
        · simpa [Nat.add_assoc, Nat.add_comm, Nat.add_left_comm,
            List.length_cons] using hfin
        · intro j hj
          cases j with
          | zero => simpa using h0
          | succ j =>
            have : j < l0.length := by
              simpa [List.length_cons] using hj
            have := hpre j this
            simpa [Nat.add_assoc, Nat.add_comm, Nat.add_left_comm] using this
    · have h0f : env i = false := by
        simpa using h0
      rw [ControlBlock.waitAux, if_neg h0] at h
      have hl : l = [] := by simpa using h.symm
      subst hl
      refine ⟨by simp, by simpa using h0f, by simp⟩

/-- C8: wait() checks the flag before any suspension: if the flag is already
changed when wait() begins, wait() returns immediately without suspending;
otherwise wait() never returns while the flag remains not-changed,
suspending for at most the bounded interval at a time and re-checking the
flag after each suspension until it observes the change. -/
theorem wait_check_then_park (cb : ControlBlock) (env : Nat → Bool)
    (fuel : Nat) :
    (env 0 = false → cb.wait env (fuel + 1) = some []) ∧
    ((∀ i, i < fuel → env i = true) → cb.wait env fuel = none) ∧
    (∀ l, cb.wait env fuel = some l →
      (∀ d ∈ l, d = cb.park_timeout) ∧ env l.length = false ∧
        ∀ i, i < l.length → env i = true) := by
  refine ⟨?_, ?_, ?_⟩
  · intro h0
    simp [ControlBlock.wait, ControlBlock.waitAux, h0]
  · intro h
    refine waitAux_none cb env fuel 0 ?_
    intro j hj
    simpa using h j hj
  · intro l h
    have := waitAux_some cb env fuel 0 l h
    simpa using this

/-- C8 witness: concrete runs of the wait loop.  With the flag cleared
before the first load, wait returns at once having parked zero times; with
the flag set at every load, it does not return; a returned empty park list
certifies the bounded-park and flag-observation facts. -/
theorem wait_check_then_park_witness :
    (ControlBlock.new 0).wait (fun _ => false) 3 = some [] ∧
    (ControlBlock.new 0).wait (fun _ => true) 2 = none ∧
    ((∀ d ∈ ([] : List Nat), d = (ControlBlock.new 0).park_timeout) ∧
      (fun _ => false : Nat → Bool) (List.length ([] : List Nat)) = false ∧
      ∀ i, i < List.length ([] : List Nat) →
        (fun _ => false : Nat → Bool) i = true) :=
  ⟨(wait_check_then_park (ControlBlock.new 0) (fun _ => false) 2).1 rfl,
   (wait_check_then_park (ControlBlock.new 0) (fun _ => true) 2).2.1
     (fun _ _ => rfl),
   (wait_check_then_park (ControlBlock.new 0) (fun _ => false) 2).2.2 [] rfl⟩

/-- C10: the ControlBlock changed-flag is monotone: no public operation ever
transitions it from changed back to still blocked — set_changed only sets it
to changed and wait() only reads it — so once set_changed has been called,
every subsequent wait() on that ControlBlock returns immediately without
suspending. -/
theorem blocked_flag_monotone (cb : ControlBlock) (ops : List CBOp) (n : Nat)
    (h : cb.blocked = false) :
    (cb.apply_all ops).blocked = false ∧
    (cb.apply_all ops).wait
      (fun _ => (cb.apply_all ops).blocked) (n + 1) = some [] ∧
    (∀ c : ControlBlock, c.apply CBOp.wait = c) ∧
    (∀ c : ControlBlock, (c.apply CBOp.set_changed).blocked = false) := by
  have hstable : ∀ (l : List CBOp) (c : ControlBlock), c.blocked = false →
      (c.apply_all l).blocked = false := by
    intro l
    induction l with
    | nil => intro c hc; exact hc
    | cons op l ih =>
      intro c hc
      cases op with
      | set_changed => exact ih _ rfl
      | wait => exact ih _ hc
  have hall : (cb.apply_all ops).blocked = false := hstable ops cb h
  refine ⟨hall, ?_, fun _ => rfl, fun _ => rfl⟩
  simp [ControlBlock.wait, ControlBlock.waitAux, hall]

/-- C10 witness: after set_changed on a fresh block, the flag stays cleared
across further operations and wait returns immediately with no parks. -/
theorem blocked_flag_monotone_witness :
    ((((ControlBlock.new 0).set_changed).1.apply_all
        [CBOp.set_changed, CBOp.wait]).blocked = false) ∧
    ((((ControlBlock.new 0).set_changed).1.apply_all
        [CBOp.set_changed, CBOp.wait]).wait
      (fun _ => (((ControlBlock.new 0).set_changed).1.apply_all
        [CBOp.set_changed, CBOp.wait]).blocked) 1 = some []) ∧
    (∀ c : ControlBlock, c.apply CBOp.wait = c) ∧
    (∀ c : ControlBlock, (c.apply CBOp.set_changed).blocked = false) :=
  blocked_flag_monotone ((ControlBlock.new 0).set_changed).1
    [CBOp.set_changed, CBOp.wait] 0 rfl

end RustStm
